import Mathlib

/-!
Verification of the BLS-randomness consensus core (BLSState.go) and the
DKG dealer (dkg_dealer.go) of the `consensus` package.

The Go code is shallowly embedded: every pure computation becomes a Lean
function, stateful methods become explicit state-passing functions, calls
into external libraries (kyber DKG primitives, the block executor, the
private validator) are passed in as explicit result parameters, and Go
panics / deferred handlers are made explicit in the result types.
-/

namespace TendermintBLS

/-- Validator address (opaque bytes in Go, abstracted to a natural). -/
abbrev Addr := Nat

/-- A hash / byte-string value; the empty list is Go's empty `[]byte`,
which consensus code uses to denote the nil block. -/
abbrev Hash := List Nat

/-- `types.PartSetHeader`: count of parts plus merkle hash. -/
structure PartSetHeader where
  total : Nat
  hash : Hash
deriving DecidableEq, Repr

/-- `types.BlockID`: block hash plus parts header. An empty `hash`
denotes the nil block, as in Go (`len(blockID.Hash) == 0`). -/
structure BlockID where
  hash : Hash
  partsHeader : PartSetHeader
deriving DecidableEq, Repr

/-- `types.Block`, reduced to the header fields the consensus core reads:
its hash and the header's random data. -/
structure Block where
  hash : Hash
  randomData : Hash
deriving DecidableEq, Repr

/-- `types.PartSet`, reduced to its header. A Go nil `*PartSet` is
`Option.none` at use sites. -/
structure PartSet where
  header : PartSetHeader
deriving DecidableEq, Repr

/-- `Block.HashesTo` on a possibly-nil `*types.Block`: false for an empty
hash, false for a nil block, otherwise hash equality. -/
def hashesTo : Option Block → Hash → Bool
  | _, [] => false
  | none, _ => false
  | some b, h => decide (b.hash = h)

/-- `PartSet.HasHeader` on a possibly-nil `*types.PartSet`: false for nil,
otherwise header equality. -/
def hasHeader : Option PartSet → PartSetHeader → Bool
  | none, _ => false
  | some ps, h => decide (ps.header = h)

/-- `types.NewPartSetFromHeader`: an empty part set carrying the header. -/
def newPartSetFromHeader (h : PartSetHeader) : PartSet := ⟨h⟩

/-- `cstypes.RoundStepType` constants (codes 0x01 .. 0x08). -/
inductive RoundStep
  | NewHeight | NewRound | Propose | Prevote | PrevoteWait
  | Precommit | PrecommitWait | Commit
deriving DecidableEq, Repr

/-- Numeric code of a round step, as in `cstypes` (`0x01` .. `0x08`);
all step guards in the Go code compare these codes. -/
def RoundStep.code : RoundStep → Nat
  | .NewHeight => 1
  | .NewRound => 2
  | .Propose => 3
  | .Prevote => 4
  | .PrevoteWait => 5
  | .Precommit => 6
  | .PrecommitWait => 7
  | .Commit => 8

/-- `types.SignedMsgType` restricted to vote types (go-amino prevents any
other type from reaching `addVote`). -/
inductive SignedMsgType
  | Prevote | Precommit
deriving DecidableEq, Repr

/-! ### DKG dealer thresholds (dkg_dealer.go)

`GetDeals` constructs the distributed key generator with threshold
`(d.validators.Size()*2)/3`; `GetVerifier` builds the `(t, n)` pair with
`t, n = (d.validators.Size() / 3) * 2, d.validators.Size()`. -/

/-- The secret-sharing threshold passed to `dkg.NewDistKeyGenerator` in
`GetDeals`: `(d.validators.Size()*2)/3` (Go integer division). -/
def GetDeals_threshold (n : Nat) : Nat := n * 2 / 3

/-- The `t` of the `(t, n)` pair passed to `types.NewBLSVerifier` in
`GetVerifier`: `(d.validators.Size() / 3) * 2` (Go integer division). -/
def GetVerifier_t (n : Nat) : Nat := n / 3 * 2

/-! ### The transition queue (dkg_dealer.go, `Transit`) -/

/-- The `(error, bool)` pair a `transition` closure reports when it runs:
`err` is the first component, `ready` the second. -/
structure TransitionRes where
  err : Option String
  ready : Bool
deriving DecidableEq, Repr

/-- `DKGDealer.Transit`: pops transitions from the head of the queue while
they report ready with no error; a not-ready head stops the drain with no
error and no removal; an erring ready head returns its error without
removal.  Returns the Go return value and the final queue. -/
def Transit : List TransitionRes → Option String × List TransitionRes
  | [] => (none, [])
  | t :: rest =>
    if t.ready = false then (none, t :: rest)
    else
      match t.err with
      | some e => (some e, t :: rest)
      | none => Transit rest

/-! ### signAddVote (BLSState.go) -/

/-- The environment `signAddVote` reads: whether a private validator key
is present and in the validator set, whether `cs.dkg.Verifier()` is
non-nil, the result of `Verifier().Sign(prev.RandomData)` and whether
`privValidator.SignData` succeeds. -/
structure SignAddVoteEnv where
  hasPrivValidator : Bool
  isValidator : Bool
  verifierPresent : Bool
  signRandom : Except String Hash
  signVoteOk : Bool
deriving Repr

/-- A vote as built by `signVote` (the fields the claims talk about). -/
structure Vote where
  ty : SignedMsgType
  hash : Hash
  header : PartSetHeader
  blsSignature : Hash
deriving DecidableEq, Repr

/-- Result of `signAddVote`: the returned vote (nil on every early
return) and whether the vote was pushed on the internal message queue
(`sendInternalMessage`). -/
structure SignAddVoteResult where
  returnedVote : Option Vote
  broadcast : Bool
deriving DecidableEq, Repr

/-- `BLSConsensusState.signAddVote`: nothing happens without a validator
key; nothing happens without a DKG verifier; a precommit additionally
BLS-signs the previous block's random data and aborts on a signing error
or empty signature; finally the vote is signed and broadcast. -/
def signAddVote (env : SignAddVoteEnv) (ty : SignedMsgType)
    (hash : Hash) (header : PartSetHeader) : SignAddVoteResult :=
  if ¬ (env.hasPrivValidator = true ∧ env.isValidator = true) then ⟨none, false⟩
  else if env.verifierPresent = false then ⟨none, false⟩
  else
    let randomData? : Option Hash :=
      if ty = .Precommit then
        match env.signRandom with
        | .error _ => none
        | .ok d => if d.length = 0 then none else some d
      else some []
    match randomData? with
    | none => ⟨none, false⟩
    | some data =>
      if env.signVoteOk then ⟨some ⟨ty, hash, header, data⟩, true⟩
      else ⟨none, false⟩

/-! ### DKGDealer state and ResetDKGData (dkg_dealer.go)

Pointer-valued fields (`kyber.Point`, `*bn256.Suite`,
`*dkg.DistKeyGenerator`, ...) are `Option`s over opaque payloads; Go
slices and maps are lists (a nil slice/map is the empty list). -/

/-- Opaque payload of a `kyber.Point`. -/
abbrev Point := Nat

/-- Opaque payload of a `kyber.Scalar`. -/
abbrev Scalar := Nat

/-- Opaque payload of a `*bn256.Suite`. -/
abbrev Suite := Nat

/-- Opaque payload of a `*dkg.DistKeyGenerator`. -/
abbrev DistKeyGenerator := Nat

/-- Opaque payload of a `*dkg.Deal`. -/
abbrev Deal := Nat

/-- Opaque payload of a `*dkg.Response`. -/
abbrev Response := Nat

/-- Opaque payload of a `*dkg.Justification` (a map entry may hold a Go
nil pointer, hence the `Option` at use sites). -/
abbrev Justification := Nat

/-- Opaque payload of a `*dkg.SecretCommits`. -/
abbrev SecretCommits := Nat

/-- Opaque payload of a `*dkg.ComplaintCommits`. -/
abbrev ComplaintCommits := Nat

/-- Opaque payload of a `*dkg.ReconstructCommits`. -/
abbrev ReconstructCommits := Nat

/-- `PK2Addr`: a received DKG public key with its sender address. -/
structure PK2Addr where
  addr : Addr
  pk : Point
deriving DecidableEq, Repr

/-- `DealerState`: the embedded identification part of the dealer. -/
structure DealerState where
  validatorsSize : Nat
  addrBytes : Hash
  participantID : Int
  roundID : Int
deriving DecidableEq, Repr

/-- `DKGDealer`: the per-round DKG state (field `instance` of the source
is `dkgInstance` here, `instance` being reserved in Lean).  Maps keyed by
sender address string are association lists. -/
structure DKGDealer where
  dealerState : DealerState
  pubKey : Option Point
  secKey : Option Scalar
  suiteG1 : Option Suite
  suiteG2 : Option Suite
  dkgInstance : Option DistKeyGenerator
  transitions : List TransitionRes
  pubKeys : List PK2Addr
  deals : List (Addr × Deal)
  responses : List Response
  justifications : List (Addr × Option Justification)
  commits : List SecretCommits
  complaints : List (Option ComplaintCommits)
  reconstructCommits : List (Option ReconstructCommits)
  losers : List Addr
deriving DecidableEq, Repr

/-- `DKGDealer.ResetDKGData`: nils out the key pair, the suites, the DKG
instance, the transition queue, and all seven message stores.  (The
`losers` field and the embedded `DealerState` are not assigned.) -/
def ResetDKGData (d : DKGDealer) : DKGDealer :=
  { d with
    pubKey := none
    secKey := none
    suiteG1 := none
    suiteG2 := none
    dkgInstance := none
    transitions := []
    pubKeys := []
    deals := []
    responses := []
    justifications := []
    commits := []
    complaints := []
    reconstructCommits := [] }

/-! ### GetCommits (dkg_dealer.go)

`GetCommits` first feeds every non-nil stored justification to
`d.instance.ProcessJustification`, then checks `d.instance.Certified()`,
then compares `d.instance.QUAL()` against the validator-set size, and
only then asks the instance for `SecretCommits()`.  The kyber instance is
external, so its outputs are parameters: one `ProcessJustification`
result per stored justification, the certification bit, the QUAL index
set and the `SecretCommits` result. -/

/-- Outputs of the kyber `DistKeyGenerator` as consumed by `GetCommits`:
`justificationResults` has one entry per stored justification (`none`
for a stored Go-nil justification, which is skipped; `some r` for a
non-nil one with `ProcessJustification` outcome `r`). -/
structure GetCommitsEnv where
  justificationResults : List (Option (Option String))
  certified : Bool
  qual : List Nat
  secretCommitsRes : Except String SecretCommits
deriving Repr

/-- The justification loop of `GetCommits`: the first failing
`ProcessJustification` aborts with its error; nil justifications are
skipped. -/
def processJustificationLoop : List (Option (Option String)) → Option String
  | [] => none
  | none :: rest => processJustificationLoop rest
  | some none :: rest => processJustificationLoop rest
  | some (some e) :: _ => some e

/-- The loser-collection loop of `GetCommits`: `for idx, pk2addr := range
d.pubKeys { if !qualSet[idx] { d.losers = append(d.losers, pk2addr.Addr) } }`,
with `idx` starting at `start`. -/
def collectLosers (qual : List Nat) : Nat → List PK2Addr → List Addr
  | _, [] => []
  | idx, pk :: rest =>
    if qual.contains idx then collectLosers qual (idx + 1) rest
    else pk.addr :: collectLosers qual (idx + 1) rest

/-- `DKGDealer.GetCommits`, with the kyber instance outputs supplied in
`env`: returns the updated losers list and the Go `(commits, error)`
result. -/
def GetCommits (env : GetCommitsEnv) (validatorsSize : Nat)
    (pubKeys : List PK2Addr) (losers : List Addr) :
    List Addr × Except String SecretCommits :=
  match processJustificationLoop env.justificationResults with
  | some e => (losers, .error e)
  | none =>
    if env.certified = false then (losers, .error "instance is not certified")
    else if env.qual.length < validatorsSize then
      (losers ++ collectLosers env.qual 0 pubKeys,
       .error "some of participants failed to complete phase I")
    else (losers, env.secretCommitsRes)

/-! ### ProcessCommits (dkg_dealer.go)

`ProcessCommits` is ready once `len(d.commits) >= len(d.instance.QUAL())`;
it then runs `d.instance.ProcessSecretCommits` on each stored commits
bundle, building one `DKGComplaint` message per bundle (with empty `Data`
when the bundle yields no complaint), and finally sends the messages only
when at least one bundle produced a complaint (`!alreadyFinished`). -/

/-- The per-bundle loop of `ProcessCommits` over the
`ProcessSecretCommits` outcomes: an error aborts; otherwise it returns
the final `alreadyFinished` flag and the `Data` payload of the message
built for each bundle (`none` = empty data). -/
def processCommitsLoop :
    List (Except String (Option ComplaintCommits)) →
    Except String (Bool × List (Option ComplaintCommits))
  | [] => .ok (true, [])
  | .error e :: _ => .error e
  | .ok none :: rest =>
    match processCommitsLoop rest with
    | .error e => .error e
    | .ok (fin, msgs) => .ok (fin, none :: msgs)
  | .ok (some c) :: rest =>
    match processCommitsLoop rest with
    | .error e => .error e
    | .ok (_, msgs) => .ok (false, some c :: msgs)

/-- `DKGDealer.ProcessCommits` with the `ProcessSecretCommits` outcome of
each stored commits bundle supplied in `commitResults`: returns the Go
`(err, ready)` pair and the list of message payloads actually sent via
`SendMsgCb`. -/
def ProcessCommits (qualLength : Nat)
    (commitResults : List (Except String (Option ComplaintCommits))) :
    Option String × Bool × List (Option ComplaintCommits) :=
  if commitResults.length < qualLength then (none, false, [])
  else
    match processCommitsLoop commitResults with
    | .error e => (some e, true, [])
    | .ok (alreadyFinished, msgs) =>
      if alreadyFinished then (none, true, []) else (none, true, msgs)

/-! ### addVote height dispatch (BLSState.go)

`addVote` first handles a vote for the previous height (`vote.Height+1 ==
cs.Height`): such a vote is fed to `cs.LastCommit.AddVote` only when the
step is `RoundStepNewHeight` and the vote is a precommit, otherwise
`ErrVoteHeightMismatch` is returned untouched; any other height mismatch
returns `ErrVoteHeightMismatch` untouched; only a vote for the current
height reaches `cs.Votes.AddVote`.  `VoteSet.AddVote` lives in the
external `types` package, so its effect is the parameter `addFn`. -/

/-- The vote fields `addVote`'s height dispatch reads. -/
structure VoteRec where
  height : Int
  round : Int
  ty : SignedMsgType
  validatorAddress : Addr
deriving DecidableEq, Repr

/-- Which path of `addVote` a vote takes. -/
inductive AddVoteOutcome
  | heightMismatch
  | lastCommitAdd
  | currentHeight
deriving DecidableEq, Repr

/-- The height dispatch prefix of `BLSConsensusState.addVote`: outcome
plus the resulting last-commit vote set (`cs.Votes` is touched only on
the `currentHeight` path, which continues past this prefix). -/
def addVoteHeightDispatch (vote : VoteRec) (csHeight : Int)
    (csStep : RoundStep) (lastCommit : List VoteRec)
    (addFn : List VoteRec → VoteRec → List VoteRec) :
    AddVoteOutcome × List VoteRec :=
  if vote.height + 1 = csHeight then
    if ¬ (csStep = .NewHeight ∧ vote.ty = .Precommit) then
      (.heightMismatch, lastCommit)
    else (.lastCommitAdd, addFn lastCommit vote)
  else if vote.height ≠ csHeight then (.heightMismatch, lastCommit)
  else (.currentHeight, lastCommit)

/-! ### tryAddVote (BLSState.go) -/

/-- The classes of error `addVote` can report, as `tryAddVote`
distinguishes them; a conflicting-votes error carries its
`DuplicateVoteEvidence` payload (opaque). -/
inductive AddVoteErr
  | voteHeightMismatch
  | conflictingVotes (evidence : Nat)
  | otherErr
deriving DecidableEq, Repr

/-- The error `tryAddVote` returns to its caller. -/
inductive TryAddVoteErr
  | voteHeightMismatch
  | conflictingVotes (evidence : Nat)
  | errAddingVote
deriving DecidableEq, Repr

/-- Result of `tryAddVote`: the `(added, err)` pair returned to
`handleMsg`, and the evidence record passed to `cs.evpool.AddEvidence`
(if any). -/
structure TryAddVoteResult where
  added : Bool
  err : Option TryAddVoteErr
  evidenceSent : Option Nat
deriving DecidableEq, Repr

/-- `BLSConsensusState.tryAddVote`: height mismatches pass through; a
conflicting-votes error sends the duplicate-vote evidence to the evidence
pool unless the vote's validator address is the node's own address (then
it only logs); every other error becomes `ErrAddingVote`. -/
def tryAddVote (addVoteRes : Bool × Option AddVoteErr)
    (voteValidatorAddress ownAddress : Addr) : TryAddVoteResult :=
  match addVoteRes with
  | (added, none) => ⟨added, none, none⟩
  | (added, some .voteHeightMismatch) => ⟨added, some .voteHeightMismatch, none⟩
  | (added, some (.conflictingVotes ev)) =>
    if voteValidatorAddress = ownAddress then
      ⟨added, some (.conflictingVotes ev), none⟩
    else ⟨added, some (.conflictingVotes ev), some ev⟩
  | (added, some .otherErr) => ⟨added, some .errAddingVote, none⟩

/-! ### enterCommit (BLSState.go)

`enterCommit` installs a deferred handler right after its height/step
guard.  The handler first `recover()`s any panic (logging it as "PANIC
HANDLED"), then unconditionally updates the step to `RoundStepCommit`,
records the commit round, and calls `tryFinalizeCommit`.  The body moves
the locked block over to the proposal slot when it matches the 2/3
precommit majority, recovers the randomness via
`cs.dkg.Verifier().Recover` (panicking on failure), stamps it onto the
proposal header, and resets the proposal parts when the committed block
is unknown. -/

/-- The round-state fields `enterCommit` reads and writes. -/
structure CommitState where
  height : Int
  round : Int
  step : RoundStep
  commitRound : Int
  lockedBlock : Option Block
  lockedBlockParts : Option PartSet
  proposalBlock : Option Block
  proposalBlockParts : Option PartSet
deriving DecidableEq, Repr

/-- Result of `enterCommit`: the updated state, whether the deferred
handler went on to call `tryFinalizeCommit`, and the panic message the
handler recovered (if the body panicked). -/
structure EnterCommitResult where
  state : CommitState
  tryFinalizeCalled : Bool
  panicHandled : Option String
deriving DecidableEq, Repr

/-- `Header.SetRandomData` on the (possibly nil) proposal block. -/
def setRandomData (b : Option Block) (rd : Hash) : Option Block :=
  match b with
  | some b => some { b with randomData := rd }
  | none => none

/-- The deferred handler of `enterCommit`: recover any panic, set the
step to `RoundStepCommit` (keeping `cs.Round`), record the commit round,
and call `tryFinalizeCommit`. -/
def enterCommitEpilogue (st : CommitState) (commitRound : Int)
    (panicMsg : Option String) : EnterCommitResult :=
  ⟨{ st with step := .Commit, commitRound := commitRound }, true, panicMsg⟩

/-- `BLSConsensusState.enterCommit`, with the 2/3 precommit majority of
round `commitRound` and the `Verifier().Recover` outcome supplied as
parameters.  The guard return happens before the deferred handler is
installed, so only that path skips the epilogue. -/
def enterCommit (cs : CommitState) (height commitRound : Int)
    (precommitMaj : Option BlockID) (recoverRes : Except String Hash) :
    EnterCommitResult :=
  if cs.height ≠ height ∨ RoundStep.code .Commit ≤ cs.step.code then
    ⟨cs, false, none⟩
  else
    match precommitMaj with
    | none =>
      enterCommitEpilogue cs commitRound
        (some "RunActionCommit() expects +2/3 precommits")
    | some blockID =>
      let cs1 :=
        if hashesTo cs.lockedBlock blockID.hash then
          { cs with
            proposalBlock := cs.lockedBlock
            proposalBlockParts := cs.lockedBlockParts }
        else cs
      match recoverRes with
      | .error e =>
        enterCommitEpilogue cs1 commitRound
          (some ("Failed to recover random data from votes: " ++ e))
      | .ok randomData =>
        let cs2 := { cs1 with
          proposalBlock := setRandomData cs1.proposalBlock randomData }
        let cs3 :=
          if hashesTo cs2.proposalBlock blockID.hash = false then
            if hasHeader cs2.proposalBlockParts blockID.partsHeader = false then
              { cs2 with
                proposalBlock := none
                proposalBlockParts := some (newPartSetFromHeader blockID.partsHeader) }
            else cs2
          else cs2
        enterCommitEpilogue cs3 commitRound none

/-! ### enterPrecommit (BLSState.go)

`enterPrecommit` defers `updateRoundStep(round, RoundStepPrecommit)` and
`newStep` right after its guard (so they run even when the body panics),
then decides the precommit vote from the round-`round` prevote set. -/

/-- The round-state fields `enterPrecommit` reads and writes. -/
structure PrecommitState where
  height : Int
  round : Int
  step : RoundStep
  lockedRound : Int
  lockedBlock : Option Block
  lockedBlockParts : Option PartSet
  proposalBlock : Option Block
  proposalBlockParts : Option PartSet
deriving DecidableEq, Repr

/-- Result of `enterPrecommit`: the updated state, the `(type, hash,
header)` triple passed to `signAddVote` (none when the body panicked
before voting), and the propagated panic message if any. -/
structure EnterPrecommitResult where
  state : PrecommitState
  vote : Option (SignedMsgType × Hash × PartSetHeader)
  panicMsg : Option String
deriving DecidableEq, Repr

/-- The deferred tail of `enterPrecommit`:
`updateRoundStep(round, RoundStepPrecommit)` sets both the round and the
step; it also runs while a panic unwinds. -/
def enterPrecommitEpilogue (st : PrecommitState) (round : Int)
    (vote : Option (SignedMsgType × Hash × PartSetHeader))
    (panicMsg : Option String) : EnterPrecommitResult :=
  ⟨{ st with round := round, step := .Precommit }, vote, panicMsg⟩

/-- The arguments of `signAddVote(types.PrecommitType, nil,
types.PartSetHeader{})`: a nil precommit. -/
def nilPrecommit : SignedMsgType × Hash × PartSetHeader :=
  (.Precommit, [], ⟨0, []⟩)

/-- `BLSConsensusState.enterPrecommit`, with the 2/3 prevote majority of
round `round`, the `POLInfo` round, and the `ValidateBlock` outcome on
the proposal block supplied as parameters. -/
def enterPrecommit (cs : PrecommitState) (height round : Int)
    (prevoteMaj : Option BlockID) (polRound : Int)
    (validateProposalErr : Option String) : EnterPrecommitResult :=
  if cs.height ≠ height ∨ round < cs.round ∨
      (cs.round = round ∧ RoundStep.code .Precommit ≤ cs.step.code) then
    ⟨cs, none, none⟩
  else
    match prevoteMaj with
    | none => enterPrecommitEpilogue cs round (some nilPrecommit) none
    | some blockID =>
      if polRound < round then
        enterPrecommitEpilogue cs round none
          (some "This POLRound should be equal to the current round")
      else if blockID.hash.length = 0 then
        if cs.lockedBlock = none then
          enterPrecommitEpilogue cs round (some nilPrecommit) none
        else
          enterPrecommitEpilogue
            { cs with lockedRound := -1, lockedBlock := none, lockedBlockParts := none }
            round (some nilPrecommit) none
      else if hashesTo cs.lockedBlock blockID.hash then
        enterPrecommitEpilogue { cs with lockedRound := round } round
          (some (.Precommit, blockID.hash, blockID.partsHeader)) none
      else if hashesTo cs.proposalBlock blockID.hash then
        match validateProposalErr with
        | some e =>
          enterPrecommitEpilogue cs round none
            (some ("enterPrecommit: +2/3 prevoted for an invalid block: " ++ e))
        | none =>
          enterPrecommitEpilogue
            { cs with
              lockedRound := round
              lockedBlock := cs.proposalBlock
              lockedBlockParts := cs.proposalBlockParts }
            round (some (.Precommit, blockID.hash, blockID.partsHeader)) none
      else
        let cs1 :=
          { cs with lockedRound := -1, lockedBlock := none, lockedBlockParts := none }
        let cs2 :=
          if hasHeader cs1.proposalBlockParts blockID.partsHeader = false then
            { cs1 with
              proposalBlock := none
              proposalBlockParts := some (newPartSetFromHeader blockID.partsHeader) }
          else cs1
        enterPrecommitEpilogue cs2 round (some nilPrecommit) none

/-! ## Theorems -/

/-- C2 counterexample: at validator-set size `n = 5` the claim fails —
`GetDeals` uses threshold `⌊2·5/3⌋ = 3`, but the `t` of the verifier
returned by `GetVerifier` is `(5/3)*2 = 2 ≠ ⌊2·5/3⌋`. -/
theorem GetVerifier_t_ne_two_thirds_at_five :
    GetDeals_threshold 5 = 2 * 5 / 3 ∧
    GetVerifier_t 5 = 2 ∧ ¬ GetVerifier_t 5 = 2 * 5 / 3 := by decide

/-- C2 (amended): for every validator-set size `n ≥ 1`, `GetDeals` uses
threshold `⌊2n/3⌋` while `GetVerifier` uses `t = 2·⌊n/3⌋`; the two agree
exactly when `n mod 3 ≠ 2`, and both satisfy `t < n`. -/
theorem dealer_thresholds (n : Nat) (h : 1 ≤ n) :
    GetDeals_threshold n = 2 * n / 3 ∧
    GetVerifier_t n = 2 * (n / 3) ∧
    GetDeals_threshold n < n ∧
    GetVerifier_t n < n ∧
    (GetVerifier_t n = GetDeals_threshold n ↔ n % 3 ≠ 2) := by
  unfold GetDeals_threshold GetVerifier_t
  omega

/-- Witness for `dealer_thresholds` at `n = 4`. -/
theorem dealer_thresholds_witness :
    GetDeals_threshold 4 = 2 * 4 / 3 ∧
    GetVerifier_t 4 = 2 * (4 / 3) ∧
    GetDeals_threshold 4 < 4 ∧
    GetVerifier_t 4 < 4 ∧
    (GetVerifier_t 4 = GetDeals_threshold 4 ↔ 4 % 3 ≠ 2) :=
  dealer_thresholds 4 (by decide)

/-- Whatever `Transit` leaves in the queue is a suffix; the consumed
prefix consists exactly of transitions that reported ready with no
error. -/
theorem Transit_consumed_prefix (q : List TransitionRes) :
    ∃ pfx, q = pfx ++ (Transit q).2 ∧
      ∀ x ∈ pfx, x.ready = true ∧ x.err = none := by
  induction q with
  | nil => exact ⟨[], by simp [Transit]⟩
  | cons t rest ih =>
    by_cases hr : t.ready = false
    · exact ⟨[], by simp [Transit, hr]⟩
    · rw [Bool.not_eq_false] at hr
      cases he : t.err with
      | some e =>
        refine ⟨[], by simp [Transit, hr, he]⟩
      | none =>
        obtain ⟨pfx, hq, hall⟩ := ih
        refine ⟨t :: pfx, ?_, ?_⟩
        · simpa [Transit, hr, he] using hq
        · intro x hx
          rcases List.mem_cons.mp hx with rfl | hx
          · exact ⟨hr, he⟩
          · exact hall x hx

/-- C4: `Transit` executes head transitions strictly in queue order — a
not-ready head makes `Transit` a no-op (no error, head kept); a ready
head with no error is removed and the next head is tried; a ready head
with an error returns that error without removing the head; and the
transitions `Transit` consumes are exactly an initial prefix of
ready-and-ok transitions. -/
theorem Transit_transitions_in_order (t : TransitionRes)
    (rest q : List TransitionRes) :
    (t.ready = false → Transit (t :: rest) = (none, t :: rest)) ∧
    (t.ready = true → t.err = none → Transit (t :: rest) = Transit rest) ∧
    (∀ e, t.ready = true → t.err = some e →
      Transit (t :: rest) = (some e, t :: rest)) ∧
    (∃ pfx, q = pfx ++ (Transit q).2 ∧
      ∀ x ∈ pfx, x.ready = true ∧ x.err = none) := by
  refine ⟨?_, ?_, ?_, Transit_consumed_prefix q⟩
  · intro h; simp [Transit, h]
  · intro h he; simp [Transit, h, he]
  · intro e h he; simp [Transit, h, he]

/-- Witness for `Transit_transitions_in_order`: a not-ready head is kept
with no error; a ready-ok head is consumed; a ready-err head keeps the
queue and surfaces the error. -/
theorem Transit_transitions_in_order_witness :
    Transit [⟨none, false⟩] = (none, [⟨none, false⟩]) ∧
    Transit [⟨none, true⟩, ⟨none, false⟩] = (none, [⟨none, false⟩]) ∧
    Transit [⟨some "boom", true⟩] = (some "boom", [⟨some "boom", true⟩]) := by
  refine ⟨(Transit_transitions_in_order ⟨none, false⟩ [] []).1 rfl, ?_, ?_⟩
  · rw [(Transit_transitions_in_order ⟨none, true⟩ [⟨none, false⟩] []).2.1 rfl rfl]
    exact (Transit_transitions_in_order ⟨none, false⟩ [] []).1 rfl
  · exact (Transit_transitions_in_order ⟨some "boom", true⟩ [] []).2.2.1 "boom" rfl rfl

/-- A fully populated dealer, as it may look after a completed round. -/
def dealer0 : DKGDealer :=
  { dealerState := ⟨4, [1], 0, 1⟩
    pubKey := some 7
    secKey := some 8
    suiteG1 := some 1
    suiteG2 := some 2
    dkgInstance := some 3
    transitions := [⟨none, true⟩]
    pubKeys := [⟨5, 7⟩]
    deals := [(5, 1)]
    responses := [2]
    justifications := [(5, some 3)]
    commits := [4]
    complaints := [some 5]
    reconstructCommits := [some 6]
    losers := [9] }

/-- C5 counterexample: `ResetDKGData` does not clear the losers list — on
a dealer whose previous round recorded loser address `9`, the losers list
still holds `9` after the reset. -/
theorem ResetDKGData_keeps_losers :
    (ResetDKGData dealer0).losers = [9] ∧
    ¬ (ResetDKGData dealer0).losers = [] := by decide

/-- C5 (amended): `ResetDKGData` clears the key pair, both suites, the
DKG instance, the transition queue, the public-key store, the deals,
responses, justifications, commits, complaints and reconstruct-commits —
every per-round field except the losers list, which is left unchanged. -/
theorem ResetDKGData_clears_all_but_losers (d : DKGDealer) :
    (ResetDKGData d).pubKey = none ∧
    (ResetDKGData d).secKey = none ∧
    (ResetDKGData d).suiteG1 = none ∧
    (ResetDKGData d).suiteG2 = none ∧
    (ResetDKGData d).dkgInstance = none ∧
    (ResetDKGData d).transitions = [] ∧
    (ResetDKGData d).pubKeys = [] ∧
    (ResetDKGData d).deals = [] ∧
    (ResetDKGData d).responses = [] ∧
    (ResetDKGData d).justifications = [] ∧
    (ResetDKGData d).commits = [] ∧
    (ResetDKGData d).complaints = [] ∧
    (ResetDKGData d).reconstructCommits = [] ∧
    (ResetDKGData d).losers = d.losers := by
  simp [ResetDKGData]

/-- C7: `addVote` admits a vote for the previous height into the
last-commit vote set only in step `NewHeight` and only for a precommit,
returning a height-mismatch error with the set untouched otherwise; any
other height mismatch returns the height-mismatch error with the set
untouched; only a vote for the current height proceeds to the current
vote sets. -/
theorem addVote_height_mismatch_rules (vote : VoteRec) (csHeight : Int)
    (csStep : RoundStep) (lastCommit : List VoteRec)
    (addFn : List VoteRec → VoteRec → List VoteRec) :
    (vote.height + 1 = csHeight →
      ¬ (csStep = .NewHeight ∧ vote.ty = .Precommit) →
      addVoteHeightDispatch vote csHeight csStep lastCommit addFn =
        (.heightMismatch, lastCommit)) ∧
    (vote.height + 1 = csHeight → csStep = .NewHeight → vote.ty = .Precommit →
      addVoteHeightDispatch vote csHeight csStep lastCommit addFn =
        (.lastCommitAdd, addFn lastCommit vote)) ∧
    (vote.height + 1 ≠ csHeight → vote.height ≠ csHeight →
      addVoteHeightDispatch vote csHeight csStep lastCommit addFn =
        (.heightMismatch, lastCommit)) ∧
    (vote.height = csHeight →
      addVoteHeightDispatch vote csHeight csStep lastCommit addFn =
        (.currentHeight, lastCommit)) := by
  refine ⟨?_, ?_, ?_, ?_⟩
  · intro h hns; simp [addVoteHeightDispatch, h, hns]
  · intro h hs ht; simp [addVoteHeightDispatch, h, hs, ht]
  · intro h hne; simp [addVoteHeightDispatch, h, hne]
  · intro h
    have hne : ¬ vote.height + 1 = csHeight := by omega
    simp [addVoteHeightDispatch, hne, h]

/-- Witness for `addVote_height_mismatch_rules`: a prevote for the
previous height is rejected with a height mismatch; a precommit for the
previous height in step `NewHeight` goes to the last-commit set; a vote
two heights back is ignored; a current-height vote proceeds. -/
theorem addVote_height_mismatch_rules_witness :
    addVoteHeightDispatch ⟨1, 0, .Prevote, 0⟩ 2 .NewHeight []
        (fun l v => v :: l) = (.heightMismatch, []) ∧
    addVoteHeightDispatch ⟨1, 0, .Precommit, 0⟩ 2 .NewHeight []
        (fun l v => v :: l) = (.lastCommitAdd, [⟨1, 0, .Precommit, 0⟩]) ∧
    addVoteHeightDispatch ⟨0, 0, .Precommit, 0⟩ 2 .NewHeight []
        (fun l v => v :: l) = (.heightMismatch, []) ∧
    addVoteHeightDispatch ⟨2, 0, .Prevote, 0⟩ 2 .Prevote []
        (fun l v => v :: l) = (.currentHeight, []) :=
  ⟨(addVote_height_mismatch_rules ⟨1, 0, .Prevote, 0⟩ 2 .NewHeight [] _).1
      (by decide) (by decide),
   (addVote_height_mismatch_rules ⟨1, 0, .Precommit, 0⟩ 2 .NewHeight [] _).2.1
      (by decide) rfl rfl,
   (addVote_height_mismatch_rules ⟨0, 0, .Precommit, 0⟩ 2 .NewHeight [] _).2.2.1
      (by decide) (by decide),
   (addVote_height_mismatch_rules ⟨2, 0, .Prevote, 0⟩ 2 .Prevote [] _).2.2.2
      (by decide)⟩

/-- C8 counterexample: a vote rejected by `addVote` with a
conflicting-votes error whose validator address equals the node's own
address (address `1` here) does not have its duplicate-vote evidence
passed to the evidence pool. -/
theorem tryAddVote_own_conflict_no_evidence :
    (tryAddVote (false, some (.conflictingVotes 42)) 1 1).err =
      some (.conflictingVotes 42) ∧
    (tryAddVote (false, some (.conflictingVotes 42)) 1 1).evidenceSent = none := by
  decide

/-- C8 (amended): a conflicting-votes rejection sends the duplicate-vote
evidence to the evidence pool exactly when the vote's validator address
differs from the node's own address; a conflicting vote from the node
itself is only logged and returned as an error. -/
theorem tryAddVote_conflict_evidence (added : Bool) (ev : Nat)
    (voteAddr ownAddr : Addr) :
    (voteAddr ≠ ownAddr →
      tryAddVote (added, some (.conflictingVotes ev)) voteAddr ownAddr =
        ⟨added, some (.conflictingVotes ev), some ev⟩) ∧
    (voteAddr = ownAddr →
      tryAddVote (added, some (.conflictingVotes ev)) voteAddr ownAddr =
        ⟨added, some (.conflictingVotes ev), none⟩) := by
  constructor <;> intro h <;> simp [tryAddVote, h]

/-- Witness for `tryAddVote_conflict_evidence`: a conflicting vote from
another validator (address 2, own address 3) sends its evidence. -/
theorem tryAddVote_conflict_evidence_witness :
    tryAddVote (true, some (.conflictingVotes 5)) 2 3 =
      ⟨true, some (.conflictingVotes 5), some 5⟩ :=
  (tryAddVote_conflict_evidence true 5 2 3).1 (by decide)

/-- C10: for every vote type — prevote or precommit — `signAddVote`
returns nil and neither signs nor broadcasts when the DKG verifier is
absent. -/
theorem signAddVote_no_verifier (env : SignAddVoteEnv) (ty : SignedMsgType)
    (hash : Hash) (header : PartSetHeader)
    (h : env.verifierPresent = false) :
    signAddVote env ty hash header = ⟨none, false⟩ := by
  unfold signAddVote
  split
  · rfl
  · simp [h]

/-- Witness for `signAddVote_no_verifier`: with a validator key present
but no verifier, neither a prevote nor a precommit is produced. -/
theorem signAddVote_no_verifier_witness :
    signAddVote ⟨true, true, false, .ok [1], true⟩ .Prevote [1] ⟨1, [2]⟩ =
      ⟨none, false⟩ ∧
    signAddVote ⟨true, true, false, .ok [1], true⟩ .Precommit [1] ⟨1, [2]⟩ =
      ⟨none, false⟩ :=
  ⟨signAddVote_no_verifier _ _ _ _ rfl, signAddVote_no_verifier _ _ _ _ rfl⟩

/-- Every public-key-store position whose index is not in `qual` has its
address collected by the loser loop of `GetCommits`. -/
theorem collectLosers_mem (qual : List Nat) (pubKeys : List PK2Addr) :
    ∀ (start i : Nat) (h : i < pubKeys.length), ¬ (start + i) ∈ qual →
      (pubKeys.get ⟨i, h⟩).addr ∈ collectLosers qual start pubKeys := by
  induction pubKeys with
  | nil => intro start i h; simp at h
  | cons pk rest ih =>
    intro start i h hq
    cases i with
    | zero =>
      have hq0 : start ∉ qual := by simpa using hq
      simp [collectLosers, hq0]
    | succ j =>
      have hj : j < rest.length := Nat.lt_of_succ_lt_succ h
      have hq' : ¬ (start + 1 + j) ∈ qual := fun hmem =>
        hq (by rw [show start + (j + 1) = start + 1 + j from by omega]; exact hmem)
      have hmem := ih (start + 1) j hj hq'
      have hget : ((pk :: rest).get ⟨j + 1, h⟩) = rest.get ⟨j, hj⟩ := rfl
      rw [hget]
      by_cases hc : start ∈ qual
      · simpa [collectLosers, hc] using hmem
      · have hc' : ¬ qual.contains start = true := by simpa using hc
        simp only [collectLosers, if_neg hc']
        exact List.mem_cons_of_mem _ hmem

/-- C6: in `GetCommits`, when the justification loop and the
certification check pass, a QUAL set smaller than the validator-set size
makes the call return the phase-I error with every non-QUAL
public-key-store address appended to the losers list, while a full QUAL
set adds no loser and returns the secret commits. -/
theorem GetCommits_qual_check (env : GetCommitsEnv) (n : Nat)
    (pubKeys : List PK2Addr) (losers : List Addr)
    (hj : processJustificationLoop env.justificationResults = none)
    (hc : env.certified = true) :
    (env.qual.length < n →
      GetCommits env n pubKeys losers =
        (losers ++ collectLosers env.qual 0 pubKeys,
         .error "some of participants failed to complete phase I") ∧
      ∀ i, (h : i < pubKeys.length) → ¬ i ∈ env.qual →
        (pubKeys.get ⟨i, h⟩).addr ∈ (GetCommits env n pubKeys losers).1) ∧
    (¬ env.qual.length < n →
      GetCommits env n pubKeys losers = (losers, env.secretCommitsRes)) := by
  constructor
  · intro hlt
    have heq : GetCommits env n pubKeys losers =
        (losers ++ collectLosers env.qual 0 pubKeys,
         .error "some of participants failed to complete phase I") := by
      unfold GetCommits
      rw [hj]
      simp [hc, hlt]
    refine ⟨heq, ?_⟩
    intro i h hqi
    rw [heq]
    exact List.mem_append_right _
      (collectLosers_mem env.qual pubKeys 0 i h (by simpa using hqi))
  · intro hge
    unfold GetCommits
    rw [hj]
    simp [hc, hge]

/-- A kyber environment for `GetCommits_qual_check_witness`: one nil and
one successfully processed justification, a certified instance, and a
QUAL set holding only index 0. -/
def getCommitsEnv0 : GetCommitsEnv := ⟨[none, some none], true, [0], .ok 0⟩

/-- Public-key store for `GetCommits_qual_check_witness`. -/
def pubKeys0 : List PK2Addr := [⟨10, 1⟩, ⟨11, 2⟩]

/-- Witness for `GetCommits_qual_check`: with two validators but QUAL =
`[0]`, address `11` (index 1) becomes a loser and the phase-I error is
returned; with QUAL covering both indices, no loser is added. -/
theorem GetCommits_qual_check_witness :
    GetCommits getCommitsEnv0 2 pubKeys0 [] =
      ([11], .error "some of participants failed to complete phase I") ∧
    GetCommits ⟨[], true, [0, 1], .ok 5⟩ 2 pubKeys0 [] = ([], .ok 5) := by
  constructor
  · have h := (GetCommits_qual_check getCommitsEnv0 2 pubKeys0 [] rfl rfl).1
      (by decide)
    rw [h.1]
    rfl
  · exact (GetCommits_qual_check ⟨[], true, [0, 1], .ok 5⟩ 2 pubKeys0 [] rfl rfl).2
      (by decide)

/-- Characterization of the per-bundle loop of `ProcessCommits` when no
`ProcessSecretCommits` call fails: one message per bundle, whose `Data`
is exactly that bundle's complaint, and `alreadyFinished` holds exactly
when no bundle produced a complaint. -/
theorem processCommitsLoop_ok
    (commitResults : List (Except String (Option ComplaintCommits)))
    (fin : Bool) (msgs : List (Option ComplaintCommits))
    (h : processCommitsLoop commitResults = .ok (fin, msgs)) :
    msgs = commitResults.map
      (fun r => match r with | .ok o => o | .error _ => none) ∧
    (fin = true ↔ ∀ r ∈ commitResults, r = .ok none) := by
  induction commitResults generalizing fin msgs with
  | nil =>
    simp only [processCommitsLoop, Except.ok.injEq, Prod.mk.injEq] at h
    obtain ⟨rfl, rfl⟩ := h
    simp
  | cons r rest ih =>
    match r with
    | .error e => simp [processCommitsLoop] at h
    | .ok none =>
      rw [processCommitsLoop] at h
      cases hrest : processCommitsLoop rest with
      | error e => rw [hrest] at h; simp at h
      | ok p =>
        obtain ⟨fin', msgs'⟩ := p
        rw [hrest] at h
        simp only [Except.ok.injEq, Prod.mk.injEq] at h
        obtain ⟨rfl, rfl⟩ := h
        obtain ⟨h1, h2⟩ := ih fin' msgs' hrest
        refine ⟨by simp [h1], ?_⟩
        simp only [List.mem_cons]
        constructor
        · intro hf x hx
          rcases hx with rfl | hx
          · rfl
          · exact (h2.mp hf) x hx
        · intro hall
          exact h2.mpr (fun x hx => hall x (Or.inr hx))
    | .ok (some c) =>
      rw [processCommitsLoop] at h
      cases hrest : processCommitsLoop rest with
      | error e => rw [hrest] at h; simp at h
      | ok p =>
        obtain ⟨fin', msgs'⟩ := p
        rw [hrest] at h
        simp only [Except.ok.injEq, Prod.mk.injEq] at h
        obtain ⟨rfl, rfl⟩ := h
        obtain ⟨h1, _⟩ := ih fin' msgs' hrest
        refine ⟨by simp [h1], ?_⟩
        simp only [List.mem_cons]
        refine ⟨fun hf => absurd hf (by simp), fun hall => ?_⟩
        exact absurd (hall (Except.ok (some c)) (Or.inl rfl)) (by simp)

/-- C9 counterexample: with `|QUAL| = 1` and a single commits bundle that
produces no complaint, `ProcessCommits` reports ready with no error but
sends zero messages — not one message per processed bundle. -/
theorem ProcessCommits_silent_when_no_complaints :
    ProcessCommits 1 [.ok none] = (none, true, []) ∧
    ¬ (ProcessCommits 1 [.ok none]).2.2.length = 1 := by decide

/-- C9 (amended): once enough commits are collected and every
`ProcessSecretCommits` call succeeds, `ProcessCommits` builds exactly one
`DKGComplaint` message per commits bundle (with empty `Data` when the
bundle yields no complaint), but sends the messages only when at least
one bundle produced a complaint; when no bundle does, no message is
sent. -/
theorem ProcessCommits_send_discipline (qualLength : Nat)
    (commitResults : List (Except String (Option ComplaintCommits)))
    (fin : Bool) (msgs : List (Option ComplaintCommits))
    (hready : ¬ commitResults.length < qualLength)
    (hloop : processCommitsLoop commitResults = .ok (fin, msgs)) :
    msgs = commitResults.map
      (fun r => match r with | .ok o => o | .error _ => none) ∧
    (fin = true ↔ ∀ r ∈ commitResults, r = .ok none) ∧
    ProcessCommits qualLength commitResults =
      (none, true, if fin = true then [] else msgs) := by
  obtain ⟨h1, h2⟩ := processCommitsLoop_ok commitResults fin msgs hloop
  refine ⟨h1, h2, ?_⟩
  unfold ProcessCommits
  rw [if_neg hready, hloop]
  cases fin <;> simp

/-- Witness for `ProcessCommits_send_discipline`: two bundles, one with a
complaint — both messages (the complaint and an empty one) are sent. -/
theorem ProcessCommits_send_discipline_witness :
    ProcessCommits 1 [Except.ok (some 3), Except.ok none] =
      (none, true, [some 3, none]) := by
  have h := ProcessCommits_send_discipline 1
      [Except.ok (some 3), Except.ok none] false [some 3, none]
      (by decide) (by rfl)
  simpa using h.2.2

/-- A block whose hash matches never matches against the empty (nil)
hash. -/
theorem hashesTo_ne_nil {b : Option Block} {h : Hash}
    (hb : hashesTo b h = true) : h ≠ [] := by
  intro hnil
  subst hnil
  cases b <;> simp [hashesTo] at hb

/-- A round state about to commit: height 5, still in the precommit
step, holding the proposal block with hash `[1]`. -/
def commitState0 : CommitState :=
  { height := 5
    round := 0
    step := .Precommit
    commitRound := -1
    lockedBlock := none
    lockedBlockParts := none
    proposalBlock := some ⟨[1], []⟩
    proposalBlockParts := some ⟨⟨1, [1]⟩⟩ }

/-- The 2/3-precommit-majority block id for `commitState0`. -/
def blockID0 : BlockID := ⟨[1], ⟨1, [1]⟩⟩

/-- C1 counterexample: entering `enterCommit` at the current height with
a 2/3 precommit majority and a failing `Recover` call does not halt the
consensus loop — the deferred handler recovers the panic and still calls
`tryFinalizeCommit`. -/
theorem enterCommit_recover_failure_continues :
    (enterCommit commitState0 5 0 (some blockID0)
      (.error "recovery")).tryFinalizeCalled = true ∧
    (enterCommit commitState0 5 0 (some blockID0)
      (.error "recovery")).panicHandled =
      some "Failed to recover random data from votes: recovery" := by
  constructor <;> rfl

/-- C1 (amended): on every entry into `enterCommit` that passes the
height/step guard, a failing `Recover` call panics, but the panic is
caught by `enterCommit`'s own deferred handler, which still advances the
step to `RoundStepCommit`, records the commit round, and calls
`tryFinalizeCommit` — the consensus loop continues rather than halting. -/
theorem enterCommit_recover_failure_handled (cs : CommitState)
    (height commitRound : Int) (blockID : BlockID) (e : String)
    (hh : cs.height = height)
    (hs : cs.step.code < RoundStep.code .Commit) :
    (enterCommit cs height commitRound (some blockID)
      (.error e)).tryFinalizeCalled = true ∧
    (enterCommit cs height commitRound (some blockID)
      (.error e)).panicHandled =
      some ("Failed to recover random data from votes: " ++ e) ∧
    (enterCommit cs height commitRound (some blockID)
      (.error e)).state.step = .Commit ∧
    (enterCommit cs height commitRound (some blockID)
      (.error e)).state.commitRound = commitRound := by
  have hguard : ¬ (cs.height ≠ height ∨
      RoundStep.code .Commit ≤ cs.step.code) := by
    push_neg
    exact ⟨hh, by omega⟩
  unfold enterCommit
  rw [if_neg hguard]
  cases hL : hashesTo cs.lockedBlock blockID.hash <;>
    simp [hL, enterCommitEpilogue]

/-- Witness for `enterCommit_recover_failure_handled` at
`commitState0`. -/
theorem enterCommit_recover_failure_handled_witness :
    (enterCommit commitState0 5 2 (some blockID0)
      (.error "x")).tryFinalizeCalled = true ∧
    (enterCommit commitState0 5 2 (some blockID0)
      (.error "x")).panicHandled =
      some ("Failed to recover random data from votes: " ++ "x") ∧
    (enterCommit commitState0 5 2 (some blockID0)
      (.error "x")).state.step = .Commit ∧
    (enterCommit commitState0 5 2 (some blockID0)
      (.error "x")).state.commitRound = 2 :=
  enterCommit_recover_failure_handled commitState0 5 2 blockID0 "x" rfl
    (by decide)

/-- C3: for every `enterPrecommit(h, r)` call passing its
height/round/step guard (with the POL-round invariant holding, so the
body does not panic), the precommit vote follows exactly the five-way
case analysis of the round-`r` prevote majority: no majority → nil, lock
untouched; majority for nil → unlock if locked, precommit nil; majority
for the locked block → relock at `r`, precommit it; majority for the
(validated) proposal block → lock it at `r`, precommit it; majority for
an unknown block → clear the lock, point the proposal parts at the
majority's parts header, precommit nil. -/
theorem enterPrecommit_case_analysis (cs : PrecommitState)
    (height round : Int) (m : Option BlockID) (polRound : Int)
    (vErr : Option String) (R : EnterPrecommitResult)
    (hR : R = enterPrecommit cs height round m polRound vErr)
    (hguard : ¬ (cs.height ≠ height ∨ round < cs.round ∨
      (cs.round = round ∧ RoundStep.code .Precommit ≤ cs.step.code)))
    (hpol : ¬ polRound < round) :
    (m = none → R.vote = some nilPrecommit ∧
      R.state.lockedRound = cs.lockedRound ∧
      R.state.lockedBlock = cs.lockedBlock ∧
      R.state.lockedBlockParts = cs.lockedBlockParts) ∧
    (∀ bid, m = some bid → bid.hash = [] →
      R.vote = some nilPrecommit ∧ R.state.lockedBlock = none ∧
      (cs.lockedBlock ≠ none → R.state.lockedRound = -1 ∧
        R.state.lockedBlockParts = none) ∧
      (cs.lockedBlock = none → R.state.lockedRound = cs.lockedRound ∧
        R.state.lockedBlockParts = cs.lockedBlockParts)) ∧
    (∀ bid, m = some bid → hashesTo cs.lockedBlock bid.hash = true →
      R.vote = some (.Precommit, bid.hash, bid.partsHeader) ∧
      R.state.lockedRound = round ∧
      R.state.lockedBlock = cs.lockedBlock ∧
      R.state.lockedBlockParts = cs.lockedBlockParts) ∧
    (∀ bid, m = some bid → hashesTo cs.lockedBlock bid.hash = false →
      hashesTo cs.proposalBlock bid.hash = true → vErr = none →
      R.vote = some (.Precommit, bid.hash, bid.partsHeader) ∧
      R.state.lockedRound = round ∧
      R.state.lockedBlock = cs.proposalBlock ∧
      R.state.lockedBlockParts = cs.proposalBlockParts) ∧
    (∀ bid, m = some bid → bid.hash ≠ [] →
      hashesTo cs.lockedBlock bid.hash = false →
      hashesTo cs.proposalBlock bid.hash = false →
      R.vote = some nilPrecommit ∧ R.state.lockedRound = -1 ∧
      R.state.lockedBlock = none ∧ R.state.lockedBlockParts = none ∧
      hasHeader R.state.proposalBlockParts bid.partsHeader = true ∧
      R.state.proposalBlockParts =
        (if hasHeader cs.proposalBlockParts bid.partsHeader = true
          then cs.proposalBlockParts
          else some (newPartSetFromHeader bid.partsHeader))) := by
  subst hR
  refine ⟨?_, ?_, ?_, ?_, ?_⟩
  · intro hm
    subst hm
    simp [enterPrecommit, hguard, enterPrecommitEpilogue]
  · intro bid hm hnil
    subst hm
    cases hl : cs.lockedBlock with
    | none =>
      simp [enterPrecommit, hguard, hpol, hnil, hl, enterPrecommitEpilogue]
    | some b =>
      simp [enterPrecommit, hguard, hpol, hnil, hl, enterPrecommitEpilogue]
  · intro bid hm hlock
    subst hm
    have hne : bid.hash ≠ [] := hashesTo_ne_nil hlock
    simp [enterPrecommit, hguard, hpol, List.length_eq_zero, hne, hlock,
      enterPrecommitEpilogue]
  · intro bid hm hlock hprop hv
    subst hm
    subst hv
    have hne : bid.hash ≠ [] := hashesTo_ne_nil hprop
    simp [enterPrecommit, hguard, hpol, List.length_eq_zero, hne, hlock,
      hprop, enterPrecommitEpilogue]
  · intro bid hm hne hlock hprop
    subst hm
    cases hH : hasHeader cs.proposalBlockParts bid.partsHeader with
    | false =>
      simp [enterPrecommit, hguard, hpol, List.length_eq_zero, hne, hlock,
        hprop, hH, enterPrecommitEpilogue]
      simp [hasHeader, newPartSetFromHeader]
    | true =>
      simp [enterPrecommit, hguard, hpol, List.length_eq_zero, hne, hlock,
        hprop, hH, enterPrecommitEpilogue]

/-- A round state in the prevote-wait step of round 1 at height 5,
locked on nothing, with proposal block hash `[1]`. -/
def precommitState0 : PrecommitState :=
  { height := 5
    round := 1
    step := .PrevoteWait
    lockedRound := -1
    lockedBlock := none
    lockedBlockParts := none
    proposalBlock := some ⟨[1], []⟩
    proposalBlockParts := some ⟨⟨1, [1]⟩⟩ }

/-- Witness for `enterPrecommit_case_analysis`: at `precommitState0`,
with a 2/3 prevote majority for the proposal block and a valid proposal,
the node locks the proposal at round 1 and precommits it. -/
theorem enterPrecommit_case_analysis_witness :
    (enterPrecommit precommitState0 5 1 (some blockID0) 1 none).vote =
      some (.Precommit, [1], ⟨1, [1]⟩) ∧
    (enterPrecommit precommitState0 5 1 (some blockID0) 1 none).state.lockedRound = 1 ∧
    (enterPrecommit precommitState0 5 1 (some blockID0) 1 none).state.lockedBlock =
      some ⟨[1], []⟩ := by
  have h := (enterPrecommit_case_analysis precommitState0 5 1 (some blockID0)
      1 none _ rfl (by decide) (by decide)).2.2.2.1 blockID0 rfl
      (by decide) (by decide) rfl
  exact ⟨h.1, h.2.1, by rw [h.2.2.1]; rfl⟩

end TendermintBLS
